import Mathlib

/-!
Verification development for the AI Marketplace backend (FastAPI + MongoDB).

The embedding models:
- MongoDB documents as association lists from field names to a small value
  universe (`Value`), and the two collections used by the API as lists of
  documents in insertion order;
- BSON ObjectIds as their 24-character lowercase-hex string form, with the
  store generating fresh ids from a counter;
- the filter dictionaries built by `main.py` (`$in`, `$regex` with the `i`
  option, `$or`, field equality) with MongoDB matching semantics;
- the route handlers `create_listing`, `list_listings`, `get_listing`,
  `create_order`, `list_orders` from `src/main.py`, and the pydantic models
  of `src/schemas.py` after validation.

MongoDB `$regex` uses PCRE.  The model implements the fragment consisting of
literal characters, the wildcard `.`, and backslash escapes of punctuation;
patterns using any other metacharacter are outside the model (`parseRegex`
returns `none`, and such a pattern matches nothing in the model).  All
theorems about `$regex` stay inside this fragment.
-/

set_option maxRecDepth 8000

set_option maxHeartbeats 1000000

namespace Mkt

/-- Values storable in a document: strings, numbers (Python floats modelled
as rationals), ObjectIds, lists of strings, and null. -/
inductive Value where
  | vStr (s : String)
  | vNum (q : ℚ)
  | vOid (o : String)
  | vList (l : List String)
  | vNull
deriving DecidableEq

/-- A MongoDB document: an association list of field names to values, in
field order (Python dicts preserve insertion order). -/
abbrev Doc := List (String × Value)

/-- Look up the value of field `k`, Python `d[k]` / `k in d`. -/
def Doc.get (d : Doc) (k : String) : Option Value :=
  Option.map Prod.snd (d.find? (fun kv => kv.1 == k))

/-- Python `d[k] = v`: replace in place when the key exists, else append. -/
def Doc.set (d : Doc) (k : String) (v : Value) : Doc :=
  if d.any (fun kv => kv.1 == k) then
    d.map (fun kv => if kv.1 == k then (k, v) else kv)
  else d ++ [(k, v)]

/-- Python `d.pop(k)`: drop the binding of `k`, keeping the other fields in
order. -/
def Doc.remove (d : Doc) (k : String) : Doc :=
  d.filter (fun kv => !(kv.1 == k))

/-- Python `str(value)`.  Faithful for ObjectIds (their hex form) and
strings; the other cases never reach `str` in the code (`_id` is always an
ObjectId). -/
def valueToString : Value → String
  | .vOid o => o
  | .vStr s => s
  | .vNum _ => ""
  | .vList _ => ""
  | .vNull => "None"

/-- Embedding of `serialize_doc` from `src/main.py`: rename `_id` to `id`
converted to its string form, and convert a `listing_id` field to a string
when it is an ObjectId. -/
def serialize_doc (doc : Doc) : Doc :=
  if doc = [] then doc
  else
    let d1 := match Doc.get doc "_id" with
      | some v => Doc.set (Doc.remove doc "_id") "id" (Value.vStr (valueToString v))
      | none => doc
    match Doc.get d1 "listing_id" with
    | some (Value.vOid o) => Doc.set d1 "listing_id" (Value.vStr o)
    | _ => d1

/-- Read a required string field, as pydantic does when building a response
model. -/
def getStr (d : Doc) (k : String) : Option String :=
  match Doc.get d k with
  | some (Value.vStr s) => some s
  | _ => none

/-- Read a required numeric field. -/
def getNum (d : Doc) (k : String) : Option ℚ :=
  match Doc.get d k with
  | some (Value.vNum q) => some q
  | _ => none

/-- Read a list-of-strings field with pydantic default `[]` when the key is
missing. -/
def getTags (d : Doc) (k : String) : Option (List String) :=
  match Doc.get d k with
  | some (Value.vList l) => some l
  | none => some []
  | _ => none

/-- Read an `Optional[str]` field: missing or null becomes `none`. -/
def getOptStr (d : Doc) (k : String) : Option (Option String) :=
  match Doc.get d k with
  | some (Value.vStr s) => some (some s)
  | some Value.vNull => some none
  | none => some none
  | _ => none

/-! ## ObjectId model -/

/-- Hex digit characters used by ObjectId string forms. -/
def hexChar (n : Nat) : Char :=
  List.getD ("0123456789abcdef".data) n '0'

/-- Fixed-width big-endian hex rendering of a counter value. -/
def genOidChars : Nat → Nat → List Char
  | 0, _ => []
  | w + 1, n => genOidChars w (n / 16) ++ [hexChar (n % 16)]

/-- The number of distinct 24-hex-character ObjectIds. -/
def oidSpace : Nat := 16 ^ 24

/-- The identifier the store generates for the `n`-th inserted document. -/
def genOid (n : Nat) : String :=
  ⟨genOidChars 24 n⟩

/-- Hexadecimal digit test, both cases, as accepted by `bson.ObjectId`. -/
def isHexChar (c : Char) : Bool :=
  c.isDigit || ('a' ≤ c && c ≤ 'f') || ('A' ≤ c && c ≤ 'F')

/-- A string is a well-formed ObjectId iff it is 24 hex characters, the
validity check performed by `bson.ObjectId(...)`. -/
def isValidOid (s : String) : Bool :=
  s.data.length == 24 && s.data.all isHexChar

/-- Lowercasing a string character-wise. -/
def lowerStr (s : String) : String :=
  ⟨s.data.map Char.toLower⟩

/-- Embedding of `ObjectId(s)`: fails on ill-formed input, otherwise yields
the canonical (lowercase, as `str` of an ObjectId prints) identifier. -/
def parseOid (s : String) : Option String :=
  if isValidOid s then some (lowerStr s) else none

/-! ## PCRE fragment for `$regex` with the `i` option -/

/-- Regex metacharacters outside the modelled fragment (the dot and the
backslash are handled by the parser itself). -/
def isMeta (c : Char) : Bool :=
  c = '^' || c = '$' || c = '|' || c = '?' || c = '*' || c = '+' ||
  c = '(' || c = ')' || c = '[' || c = ']' || c = '\x7b' || c = '\x7d'

/-- Single-character regex tokens of the modelled fragment. -/
inductive RTok where
  | lit (c : Char)
  | dot
deriving DecidableEq

/-- Does a token match one character, case-insensitively (`$options: "i"`)? -/
def tokMatch : RTok → Char → Bool
  | .lit c, d => c.toLower == d.toLower
  | .dot, _ => true

/-- Parse a pattern of the modelled PCRE fragment; `none` when the pattern
uses features outside the fragment. -/
def parseRegex : List Char → Option (List RTok)
  | [] => some []
  | c :: rest =>
    if c = '\\' then
      match rest with
      | [] => none
      | d :: rest2 =>
        if d.isAlphanum then none
        else Option.map (fun ts => RTok.lit d :: ts) (parseRegex rest2)
    else if c = '.' then Option.map (fun ts => RTok.dot :: ts) (parseRegex rest)
    else if isMeta c then none
    else Option.map (fun ts => RTok.lit c :: ts) (parseRegex rest)

/-- Do the tokens match a prefix of `s`? -/
def matchAt : List RTok → List Char → Bool
  | [], _ => true
  | _ :: _, [] => false
  | t :: ts, c :: cs => tokMatch t c && matchAt ts cs

/-- Do the tokens match at some position of `s` (unanchored search, as
MongoDB `$regex` performs)? -/
def regexSearch (toks : List RTok) : List Char → Bool
  | [] => matchAt toks []
  | c :: cs => matchAt toks (c :: cs) || regexSearch toks cs

/-- Case-insensitive unanchored regex test, the model of
`{"$regex": pat, "$options": "i"}` on a string value. -/
def regexFindCI (pat s : String) : Bool :=
  match parseRegex pat.data with
  | none => false
  | some toks => regexSearch toks s.data

/-- A pattern string all of whose characters are regex-literal: matching it
is plain substring search. -/
def regexLiteralStr (x : String) : Bool :=
  x.data.all (fun c => !(c = '.' || c = '\\' || isMeta c))

/-- Case-insensitive substring occurrence, the specification-side reading of
the `q` filter. -/
def ciSubstring (x s : String) : Prop :=
  x.data.map Char.toLower <:+: s.data.map Char.toLower

/-! ## Filters and the document store -/

/-- A single-field condition of the filter dictionaries built in
`src/main.py`: equality, `{"$in": [...]}`, or `{"$regex": pat,
"$options": "i"}`. -/
inductive Cond where
  | ceq (v : Value)
  | cin (vs : List String)
  | cregexI (pat : String)
deriving DecidableEq

/-- A filter dictionary: field conditions, plus an optional top-level
`"$or"` clause whose branches each test one field against the same
case-insensitive regex (the only shape `main.py` builds). -/
structure Filter where
  fields : List (String × Cond)
  orReg : Option (List String × String)
deriving DecidableEq

/-- MongoDB matching of one field condition against a document. -/
def matchesCond (d : Doc) (k : String) : Cond → Bool
  | .ceq v =>
    match Doc.get d k with
    | some w =>
      decide (w = v) ||
        (match w, v with
         | .vList l, .vStr s => l.contains s
         | _, _ => false)
    | none => decide (v = Value.vNull)
  | .cin vs =>
    match Doc.get d k with
    | some (.vStr t) => vs.contains t
    | some (.vList l) => l.any (fun t => vs.contains t)
    | _ => false
  | .cregexI pat =>
    match Doc.get d k with
    | some (.vStr t) => regexFindCI pat t
    | some (.vList l) => l.any (fun t => regexFindCI pat t)
    | _ => false

/-- MongoDB matching of a whole filter dictionary (conjunction of the field
conditions, and of the `$or` clause when present). -/
def matchesFilter (f : Filter) (d : Doc) : Bool :=
  f.fields.all (fun kc => matchesCond d kc.1 kc.2) &&
    (match f.orReg with
     | none => true
     | some (ks, pat) => ks.any (fun k => matchesCond d k (Cond.cregexI pat)))

/-- The filter `{"_id": oid}` used by every lookup in `main.py`. -/
def idFilter (o : String) : Filter :=
  ⟨[("_id", Cond.ceq (Value.vOid o))], none⟩

/-- The document store: the two collections the API uses, in insertion
order, and the counter from which fresh ObjectIds are generated. -/
structure Store where
  listing : List Doc
  order : List Doc
  counter : Nat
deriving DecidableEq

/-- Collection access by name, `db[name]`. -/
def Store.getColl (st : Store) (c : String) : List Doc :=
  if c = "listing" then st.listing else if c = "order" then st.order else []

/-- Collection replacement by name. -/
def Store.setColl (st : Store) (c : String) (docs : List Doc) : Store :=
  if c = "listing" then { st with listing := docs }
  else if c = "order" then { st with order := docs }
  else st

/-- MongoDB `find_one(filter)`: the first matching document in natural
(insertion) order. -/
def find_one (docs : List Doc) (f : Filter) : Option Doc :=
  docs.find? (matchesFilter f)

/-- Modelled from the spec: `get_documents(collection, filter, limit)` lives
in `database.py`, which is not under `src/`; section 4.2 of the spec says it
returns up to `limit` matching records in store-default insertion order. -/
def get_documents (docs : List Doc) (f : Filter) (limit : Nat) : List Doc :=
  (docs.filter (matchesFilter f)).take limit

/-- Modelled from the spec: `create_document(collection, record)` lives in
`database.py`, which is not under `src/`; section 4.2 of the spec says it
inserts the validated record (one write) and returns the newly generated
identifier.  The store assigns the fresh `_id` and bumps its counter. -/
def create_document (st : Store) (c : String) (rec : Doc) : String × Store :=
  let oid := genOid st.counter
  let doc : Doc := ("_id", Value.vOid oid) :: rec
  (oid,
    { Store.setColl st c (Store.getColl st c ++ [doc]) with
        counter := st.counter + 1 })

/-! ## Schemas (src/schemas.py, after pydantic validation) -/

/-- Email shape test.  Modelled from the spec: pydantic `EmailStr` delegates
to the external email-validator package; the spec only requires that
malformed emails fail validation.  The model checks the basic shape
`user@domain.tld`. -/
def isValidEmail (s : String) : Bool :=
  !(s.data.contains ' ') &&
    (match s.data.splitOn '@' with
     | [u, dom] => !u.isEmpty && !dom.isEmpty && dom.contains '.'
     | _ => false)

/-- URL shape test.  Modelled from the spec: pydantic `HttpUrl` is external
validation; the spec only requires that malformed URLs fail.  The model
checks the scheme prefix. -/
def isValidUrl (s : String) : Bool :=
  List.isPrefixOf "http://".data s.data || List.isPrefixOf "https://".data s.data

/-- The `Listing` pydantic model of `src/schemas.py` (fields after
validation). -/
structure Listing where
  title : String
  type : String
  description : String
  price : ℚ
  tags : List String
  seller_name : String
  seller_email : String
  demo_url : Option String
  thumbnail_url : Option String
deriving DecidableEq

/-- Validation of a Listing payload per `src/schemas.py`: `price ≥ 0`
(`Field(..., ge=0)`), a valid seller email (`EmailStr`), and valid URLs when
present (`HttpUrl`). -/
def Listing.valid (p : Listing) : Bool :=
  decide (0 ≤ p.price) && isValidEmail p.seller_email &&
    (match p.demo_url with | some u => isValidUrl u | none => true) &&
    (match p.thumbnail_url with | some u => isValidUrl u | none => true)

/-- The `Order` pydantic model of `src/schemas.py` (fields after
validation; `status` defaults to `"completed"`). -/
structure Order where
  listing_id : String
  buyer_name : String
  buyer_email : String
  status : String
deriving DecidableEq

/-- Python `None`-aware string value for an `Optional[str]` field dumped
into a document. -/
def optStr : Option String → Value
  | some s => Value.vStr s
  | none => Value.vNull

/-- The document `model_dump` of a Listing produces (field order as in
`src/schemas.py`). -/
def listingToDoc (p : Listing) : Doc :=
  [("title", Value.vStr p.title),
   ("type", Value.vStr p.type),
   ("description", Value.vStr p.description),
   ("price", Value.vNum p.price),
   ("tags", Value.vList p.tags),
   ("seller_name", Value.vStr p.seller_name),
   ("seller_email", Value.vStr p.seller_email),
   ("demo_url", optStr p.demo_url),
   ("thumbnail_url", optStr p.thumbnail_url)]

/-- The document `payload.model_dump()` of an Order produces. -/
def orderToDoc (p : Order) : Doc :=
  [("listing_id", Value.vStr p.listing_id),
   ("buyer_name", Value.vStr p.buyer_name),
   ("buyer_email", Value.vStr p.buyer_email),
   ("status", Value.vStr p.status)]

/-! ## API layer (src/main.py) -/

/-- The error taxonomy of the API (section 7 of the spec). -/
inductive ApiError where
  | invalidArgument
  | notFound
  | validationError
  | internalError
deriving DecidableEq

/-- HTTP status equivalent of each error. -/
def ApiError.status : ApiError → Nat
  | .invalidArgument => 400
  | .notFound => 404
  | .validationError => 422
  | .internalError => 500

/-- The `ListingOut` response model of `src/main.py`. -/
structure ListingOut where
  id : String
  title : String
  type : String
  description : String
  price : ℚ
  tags : List String
  seller_name : String
  seller_email : String
  demo_url : Option String
  thumbnail_url : Option String
deriving DecidableEq

/-- The `OrderOut` response model of `src/main.py`. -/
structure OrderOut where
  id : String
  listing_id : String
  buyer_name : String
  buyer_email : String
  status : String
deriving DecidableEq

/-- Build `ListingOut(**d)`: pydantic reads each declared field from the
dict (extra keys are ignored) and fails if a required field is missing or of
the wrong shape. -/
def docToListingOut (d : Doc) : Option ListingOut := do
  let i ← getStr d "id"
  let title ← getStr d "title"
  let ty ← getStr d "type"
  let descr ← getStr d "description"
  let price ← getNum d "price"
  let tags ← getTags d "tags"
  let sn ← getStr d "seller_name"
  let se ← getStr d "seller_email"
  let du ← getOptStr d "demo_url"
  let tu ← getOptStr d "thumbnail_url"
  some ⟨i, title, ty, descr, price, tags, sn, se, du, tu⟩

/-- Build `OrderOut(**d)`. -/
def docToOrderOut (d : Doc) : Option OrderOut := do
  let i ← getStr d "id"
  let li ← getStr d "listing_id"
  let bn ← getStr d "buyer_name"
  let be ← getStr d "buyer_email"
  let s ← getStr d "status"
  some ⟨i, li, bn, be, s⟩

/-- Embedding of `POST /api/listings` (`create_listing` in `src/main.py`):
persist the validated payload, re-fetch by the new id, serialize.  Paths the
Python code would turn into an unhandled error surface as
`ApiError.internalError`. -/
def create_listing (st : Store) (p : Listing) :
    Except ApiError ListingOut × Store :=
  let r := create_document st "listing" (listingToDoc p)
  let st1 := r.2
  match parseOid r.1 with
  | none => (.error .internalError, st1)
  | some o =>
    match find_one (Store.getColl st1 "listing") (idFilter o) with
    | none => (.error .internalError, st1)
    | some d =>
      match docToListingOut (serialize_doc d) with
      | some out => (.ok out, st1)
      | none => (.error .internalError, st1)

/-- Python truthiness of an optional query string: `None` and `""` are
falsy, so `if q:` skips both. -/
def truthy : Option String → Option String
  | none => none
  | some s => if s = "" then none else some s

/-- FastAPI `Query(50, ge=1, le=100)`: default 50 when absent; any supplied
value outside `[1, 100]` is rejected with a validation error before the
handler runs. -/
def checkLimit : Option Int → Option Nat
  | none => some 50
  | some l => if 1 ≤ l ∧ l ≤ 100 then some l.toNat else none

/-- The filter dictionary `list_listings` builds from its query
parameters. -/
def listingFilter (q ty tg : Option String) : Filter :=
  ⟨(match truthy ty with
    | some t => [("type", Cond.ceq (Value.vStr t))]
    | none => []) ++
   (match truthy tg with
    | some g => [("tags", Cond.cin [g])]
    | none => []),
   match truthy q with
   | some x => some (["title", "description", "tags"], x)
   | none => none⟩

/-- Embedding of `GET /api/listings` (`list_listings` in `src/main.py`),
returning the serialized documents. -/
def list_listings (st : Store) (q ty tg : Option String) (limit : Option Int) :
    Except ApiError (List Doc) :=
  match checkLimit limit with
  | none => .error .validationError
  | some n =>
    .ok ((get_documents (Store.getColl st "listing") (listingFilter q ty tg) n).map
      serialize_doc)

/-- Embedding of `GET /api/listings/{listing_id}` (`get_listing` in
`src/main.py`). -/
def get_listing (st : Store) (listing_id : String) : Except ApiError ListingOut :=
  match parseOid listing_id with
  | none => .error .invalidArgument
  | some o =>
    match find_one (Store.getColl st "listing") (idFilter o) with
    | none => .error .notFound
    | some d =>
      match docToListingOut (serialize_doc d) with
      | some out => .ok out
      | none => .error .internalError

/-- Embedding of `POST /api/orders` (`create_order` in `src/main.py`):
parse the referenced id (400 on failure), look the Listing up (404 when
absent), store the Order with `listing_id` as a native ObjectId, re-fetch,
serialize. -/
def create_order (st : Store) (p : Order) :
    Except ApiError OrderOut × Store :=
  match parseOid p.listing_id with
  | none => (.error .invalidArgument, st)
  | some o =>
    match find_one (Store.getColl st "listing") (idFilter o) with
    | none => (.error .notFound, st)
    | some _ =>
      let data := Doc.set (orderToDoc p) "listing_id" (Value.vOid o)
      let r := create_document st "order" data
      let st1 := r.2
      match parseOid r.1 with
      | none => (.error .internalError, st1)
      | some o2 =>
        match find_one (Store.getColl st1 "order") (idFilter o2) with
        | none => (.error .internalError, st1)
        | some d =>
          match docToOrderOut (serialize_doc d) with
          | some out => (.ok out, st1)
          | none => (.error .internalError, st1)

/-- The filter dictionary `list_orders` builds. -/
def orderFilter (buyer_email : Option String) : Filter :=
  ⟨(match truthy buyer_email with
    | some b => [("buyer_email", Cond.ceq (Value.vStr b))]
    | none => []),
   none⟩

/-- Embedding of `GET /api/orders` (`list_orders` in `src/main.py`),
returning the serialized documents. -/
def list_orders (st : Store) (buyer_email : Option String) (limit : Option Int) :
    Except ApiError (List Doc) :=
  match checkLimit limit with
  | none => .error .validationError
  | some n =>
    .ok ((get_documents (Store.getColl st "order") (orderFilter buyer_email) n).map
      serialize_doc)

/-! ## Store well-formedness -/

/-- Well-formed store: the counter has room in the ObjectId space, and every
stored document carries a store-generated `_id` older than the counter. -/
structure Store.WF (st : Store) : Prop where
  hc : st.counter < oidSpace
  hl : ∀ d ∈ st.listing, ∃ k, k < st.counter ∧
    Doc.get d "_id" = some (Value.vOid (genOid k))
  ho : ∀ d ∈ st.order, ∃ k, k < st.counter ∧
    Doc.get d "_id" = some (Value.vOid (genOid k))

/-- Every document of the listing collection was inserted through
`create_listing`: a store-generated `_id` followed by a dumped payload. -/
def Store.ListingsShaped (st : Store) : Prop :=
  ∀ d ∈ st.listing, ∃ oid p, d = ("_id", Value.vOid oid) :: listingToDoc p

/-! ## Concrete instances used to exercise the theorems -/

/-- The freshly initialized store. -/
def stEmpty : Store := ⟨[], [], 0⟩

/-- A valid Listing payload. -/
def pBot : Listing := ⟨"Bot", "chatbot", "d", 5, [], "A", "a@x.com", none, none⟩

/-- A Listing whose title and description contain no dot. -/
def pB : Listing := ⟨"b", "t", "c", 1, [], "s", "s@e.co", none, none⟩

/-- A Listing carrying exactly the tag "a". -/
def pTagged : Listing := ⟨"x", "t", "y", 2, ["a"], "s", "s@e.co", none, none⟩

/-- A store holding the single listing `pB`. -/
def stA : Store := ⟨[("_id", Value.vOid (genOid 0)) :: listingToDoc pB], [], 1⟩

/-- A store holding the single listing `pTagged`. -/
def stB : Store := ⟨[("_id", Value.vOid (genOid 0)) :: listingToDoc pTagged], [], 1⟩

/-- An Order whose listing_id is well-formed but matches nothing in `stA`. -/
def oWit : Order := ⟨"0123456789abcdef01234567", "B", "b@x.co", "completed"⟩

/-- An Order whose listing_id is not a well-formed ObjectId. -/
def oBad : Order := ⟨"not-an-oid", "B", "b@x.co", "completed"⟩

/-- A Listing payload with a negative price. -/
def pNeg : Listing := ⟨"n", "t", "d", -1, [], "s", "s@e.co", none, none⟩

/-- The output `create_listing stEmpty pBot` produces. -/
def outBot : ListingOut :=
  ⟨genOid 0, "Bot", "chatbot", "d", 5, [], "A", "a@x.com", none, none⟩

/-- The store state after `create_listing stEmpty pBot`. -/
def stBotPost : Store := ⟨[("_id", Value.vOid (genOid 0)) :: listingToDoc pBot], [], 1⟩

/-- A raw stored document exercising serialization. -/
def dSer : Doc := [("_id", Value.vOid "aa"), ("listing_id", Value.vOid "bb"), ("x", Value.vStr "y")]

/-! ## Lemmas: generated identifiers -/

theorem genOidChars_length (w : Nat) : ∀ n, (genOidChars w n).length = w := by
  induction w with
  | zero => intro n; rfl
  | succ w ih => intro n; simp [genOidChars, ih]

theorem hexChar_inj : ∀ a < 16, ∀ b < 16, hexChar a = hexChar b → a = b := by decide

theorem genOidChars_inj (w : Nat) :
    ∀ m n, m < 16 ^ w → n < 16 ^ w → genOidChars w m = genOidChars w n → m = n := by
  induction w with
  | zero =>
    intro m n hm hn _
    omega
  | succ w ih =>
    intro m n hm hn h
    rw [genOidChars, genOidChars] at h
    obtain ⟨h1, h2⟩ := List.append_inj' h rfl
    have e2 : m % 16 = n % 16 :=
      hexChar_inj _ (Nat.mod_lt _ (by norm_num)) _ (Nat.mod_lt _ (by norm_num))
        (by simpa using h2)
    have hdm : m / 16 < 16 ^ w := by
      rw [Nat.div_lt_iff_lt_mul (by norm_num)]
      calc m < 16 ^ (w + 1) := hm
        _ = 16 ^ w * 16 := by ring
    have hdn : n / 16 < 16 ^ w := by
      rw [Nat.div_lt_iff_lt_mul (by norm_num)]
      calc n < 16 ^ (w + 1) := hn
        _ = 16 ^ w * 16 := by ring
    have e1 : m / 16 = n / 16 := ih _ _ hdm hdn h1
    omega

theorem genOid_inj {m n : Nat} (hm : m < oidSpace) (hn : n < oidSpace)
    (h : genOid m = genOid n) : m = n :=
  genOidChars_inj 24 m n hm hn (congrArg String.data h)

theorem isHexChar_hexChar : ∀ k < 16, isHexChar (hexChar k) = true := by decide

theorem genOidChars_all_hex (w : Nat) :
    ∀ n, (genOidChars w n).all isHexChar = true := by
  induction w with
  | zero => intro n; rfl
  | succ w ih =>
    intro n
    simp only [genOidChars, List.all_append, ih, Bool.true_and, List.all_cons,
      List.all_nil, Bool.and_true]
    exact isHexChar_hexChar _ (Nat.mod_lt _ (by norm_num))

theorem isValidOid_genOid (n : Nat) : isValidOid (genOid n) = true := by
  simp [isValidOid, genOid, genOidChars_length, genOidChars_all_hex 24 n]

theorem toLower_hexChar : ∀ k < 16, Char.toLower (hexChar k) = hexChar k := by decide

theorem genOidChars_toLower (w : Nat) :
    ∀ n, (genOidChars w n).map Char.toLower = genOidChars w n := by
  induction w with
  | zero => intro n; rfl
  | succ w ih =>
    intro n
    simp only [genOidChars, List.map_append, ih, List.map_cons, List.map_nil]
    rw [toLower_hexChar _ (Nat.mod_lt _ (by norm_num))]

theorem lowerStr_genOid (n : Nat) : lowerStr (genOid n) = genOid n := by
  simp [lowerStr, genOid, genOidChars_toLower 24 n]

theorem parseOid_genOid (n : Nat) : parseOid (genOid n) = some (genOid n) := by
  simp [parseOid, isValidOid_genOid, lowerStr_genOid]

theorem genOid_ne_empty (n : Nat) : genOid n ≠ "" := by
  intro h
  have hl := congrArg (fun s => s.data.length) h
  simp [genOid, genOidChars_length] at hl

/-! ## Lemmas: the regex fragment -/

theorem parseRegex_lit (l : List Char)
    (h : ∀ c ∈ l, !(c = '.' || c = '\\' || isMeta c) = true) :
    parseRegex l = some (l.map RTok.lit) := by
  induction l with
  | nil => rfl
  | cons c rest ih =>
    have hc := h c (by simp)
    rw [Bool.not_eq_true'] at hc
    have hdot : c ≠ '.' := by intro e; rw [e] at hc; simp at hc
    have hbs : c ≠ '\\' := by intro e; rw [e] at hc; simp at hc
    have hm : isMeta c = false := by
      cases hmi : isMeta c
      · rfl
      · rw [hmi] at hc; simp at hc
    rw [parseRegex.eq_def]
    simp only [if_neg hbs, if_neg hdot, hm, Bool.false_eq_true, if_false,
      ih (fun c hcm => h c (by simp [hcm])), List.map_cons]
    rfl

theorem matchAt_lit_iff (l : List Char) :
    ∀ s, matchAt (l.map RTok.lit) s = true ↔
      l.map Char.toLower <+: s.map Char.toLower := by
  induction l with
  | nil =>
    intro s
    simp [matchAt]
  | cons c l ih =>
    intro s
    cases s with
    | nil => simp [matchAt]
    | cons d s =>
      simp [matchAt, tokMatch, List.cons_prefix_cons, ih s]

theorem regexSearch_lit_iff (l : List Char) :
    ∀ s, regexSearch (l.map RTok.lit) s = true ↔
      l.map Char.toLower <:+: s.map Char.toLower := by
  intro s
  induction s with
  | nil =>
    simp [regexSearch, matchAt_lit_iff]
  | cons c s ih =>
    rw [regexSearch, List.map_cons, List.infix_cons_iff, ← List.map_cons]
    simp [matchAt_lit_iff, ih]

theorem regexFindCI_lit_iff (x s : String) (hx : regexLiteralStr x = true) :
    regexFindCI x s = true ↔ ciSubstring x s := by
  unfold regexFindCI ciSubstring
  rw [parseRegex_lit x.data (by simpa [regexLiteralStr, List.all_eq_true] using hx)]
  exact regexSearch_lit_iff x.data s.data

theorem ciSubstring_nil (s : String) : ciSubstring "" s :=
  List.nil_infix

/-! ## Lemmas: documents as association lists -/

theorem doc_get_cons (k1 : String) (v : Value) (d : Doc) (k : String) :
    Doc.get ((k1, v) :: d) k = if k1 = k then some v else Doc.get d k := by
  by_cases h : k1 = k
  · subst h
    rw [Doc.get, List.find?_cons_of_pos _ (by simp), if_pos rfl]
    rfl
  · rw [Doc.get, List.find?_cons_of_neg _ (by simp [h]), if_neg h]
    rfl

theorem get_remove_self (d : Doc) (k : String) :
    Doc.get (Doc.remove d k) k = none := by
  have hf : List.find? (fun kv => kv.1 == k) (Doc.remove d k) = none := by
    rw [List.find?_eq_none]
    intro x hx
    rw [Doc.remove, List.mem_filter] at hx
    simpa using hx.2
  rw [Doc.get, hf]
  rfl

theorem get_remove_ne (d : Doc) (k k' : String) (h : k' ≠ k) :
    Doc.get (Doc.remove d k) k' = Doc.get d k' := by
  induction d with
  | nil => rfl
  | cons kv rest ih =>
    obtain ⟨k1, v⟩ := kv
    by_cases h2 : k1 = k
    · have : Doc.remove ((k1, v) :: rest) k = Doc.remove rest k := by
        rw [Doc.remove, List.filter_cons, if_neg (by simp [h2])]
        rfl
      rw [this, ih, doc_get_cons, if_neg (by rw [h2]; exact fun e => h e.symm)]
    · have : Doc.remove ((k1, v) :: rest) k = (k1, v) :: Doc.remove rest k := by
        rw [Doc.remove, List.filter_cons, if_pos (by simp [h2])]
        rfl
      rw [this, doc_get_cons, doc_get_cons, ih]

theorem get_set_self (d : Doc) (k : String) (v : Value) :
    Doc.get (Doc.set d k v) k = some v := by
  induction d with
  | nil => simp [Doc.set, Doc.get]
  | cons kv rest ih =>
    obtain ⟨k1, w⟩ := kv
    by_cases h : k1 = k
    · have : Doc.set ((k1, w) :: rest) k v =
          (k, v) :: rest.map (fun kv => if kv.1 == k then (k, v) else kv) := by
        simp [Doc.set, List.any_cons, h]
      rw [this, doc_get_cons, if_pos rfl]
    · cases ha : rest.any (fun kv => kv.1 == k) with
      | true =>
        have : Doc.set ((k1, w) :: rest) k v = (k1, w) :: Doc.set rest k v := by
          simp [Doc.set, List.any_cons, h, ha]
        rw [this, doc_get_cons, if_neg h, ih]
      | false =>
        have : Doc.set ((k1, w) :: rest) k v = (k1, w) :: Doc.set rest k v := by
          simp [Doc.set, List.any_cons, h, ha]
        rw [this, doc_get_cons, if_neg h, ih]

theorem doc_get_append (d1 d2 : Doc) (k : String) :
    Doc.get (d1 ++ d2) k = (Doc.get d1 k).or (Doc.get d2 k) := by
  rw [Doc.get, Doc.get, Doc.get, List.find?_append]
  cases List.find? (fun kv => kv.1 == k) d1 <;> rfl

theorem get_map_replace (d : Doc) (k : String) (v : Value) (k' : String) (h : k' ≠ k) :
    Doc.get (d.map (fun kv => if kv.1 == k then (k, v) else kv)) k' = Doc.get d k' := by
  induction d with
  | nil => rfl
  | cons kv r ih =>
    obtain ⟨k1, w⟩ := kv
    by_cases h1 : k1 = k
    · rw [List.map_cons, if_pos (show ((k1, w).1 == k) = true by simp [h1]),
        doc_get_cons, doc_get_cons, if_neg (fun e2 => h e2.symm),
        if_neg (fun e2 => h (h1 ▸ e2).symm), ih]
    · rw [List.map_cons, if_neg (show ¬((k1, w).1 == k) = true by simp [h1]),
        doc_get_cons, doc_get_cons, ih]

theorem get_set_ne (d : Doc) (k : String) (v : Value) (k' : String) (h : k' ≠ k) :
    Doc.get (Doc.set d k v) k' = Doc.get d k' := by
  cases ha : d.any (fun kv => kv.1 == k) with
  | true =>
    rw [Doc.set, ha]
    simpa using get_map_replace d k v k' h
  | false =>
    rw [Doc.set, ha]
    simp only [Bool.false_eq_true, if_false, doc_get_append]
    rw [show Doc.get [(k, v)] k' = none by
      rw [doc_get_cons, if_neg (fun e => h e.symm)]; rfl]
    cases Doc.get d k' <;> rfl

/-! ## Lemmas: store lookups and the create/fetch pipeline -/

theorem getColl_listing (st : Store) : Store.getColl st "listing" = st.listing := rfl

theorem getColl_order (st : Store) : Store.getColl st "order" = st.order := rfl

theorem setColl_listing (st : Store) (docs : List Doc) :
    Store.setColl st "listing" docs = { st with listing := docs } := rfl

theorem setColl_order (st : Store) (docs : List Doc) :
    Store.setColl st "order" docs = { st with order := docs } := rfl

theorem matchesFilter_idFilter (o : String) (d : Doc) :
    matchesFilter (idFilter o) d = true ↔
      Doc.get d "_id" = some (Value.vOid o) := by
  have e : matchesFilter (idFilter o) d =
      matchesCond d "_id" (Cond.ceq (Value.vOid o)) := by
    rw [matchesFilter, idFilter]
    simp
  rw [e, matchesCond]
  cases hg : Doc.get d "_id" with
  | none => simp
  | some w => cases w <;> simp

theorem find_fresh_none (st : Store) (hWF : Store.WF st) :
    List.find? (matchesFilter (idFilter (genOid st.counter))) st.listing = none := by
  rw [List.find?_eq_none]
  intro d hd
  obtain ⟨k, hk, hget⟩ := hWF.hl d hd
  have hne : ¬ matchesFilter (idFilter (genOid st.counter)) d = true := by
    intro hmf
    have hsome := (matchesFilter_idFilter _ _).mp hmf
    rw [hget] at hsome
    have hko : genOid k = genOid st.counter := by
      injection hsome with h2
      injection h2
    have := genOid_inj (lt_trans hk hWF.hc) hWF.hc hko
    omega
  simpa using hne

theorem docToListingOut_serialize (oid : String) (p : Listing) :
    docToListingOut (serialize_doc (("_id", Value.vOid oid) :: listingToDoc p)) =
      some ⟨oid, p.title, p.type, p.description, p.price, p.tags,
        p.seller_name, p.seller_email, p.demo_url, p.thumbnail_url⟩ := by
  obtain ⟨t, ty, de, pr, tg, sn, se, du, tu⟩ := p
  cases du <;> cases tu <;> rfl

/-- The output record and post-state `create_listing` produces on a
well-formed store. -/
theorem create_listing_ok (st : Store) (hWF : Store.WF st) (p : Listing) :
    create_listing st p =
      (.ok ⟨genOid st.counter, p.title, p.type, p.description, p.price, p.tags,
         p.seller_name, p.seller_email, p.demo_url, p.thumbnail_url⟩,
       { st with
           listing := st.listing ++ [("_id", Value.vOid (genOid st.counter)) :: listingToDoc p],
           counter := st.counter + 1 }) := by
  have hmatch : matchesFilter (idFilter (genOid st.counter))
      (("_id", Value.vOid (genOid st.counter)) :: listingToDoc p) = true :=
    (matchesFilter_idFilter _ _).mpr (by rw [doc_get_cons, if_pos rfl])
  simp only [create_listing, create_document, getColl_listing, setColl_listing,
    parseOid_genOid, find_one, List.find?_append, find_fresh_none st hWF,
    List.find?_cons_of_pos _ hmatch, Option.none_or, docToListingOut_serialize]

theorem mem_list_listings (st : Store) (q ty tg : Option String) (lim : Option Int)
    (res : List Doc) (h : list_listings st q ty tg lim = .ok res) :
    ∀ d ∈ res, ∃ d0 ∈ st.listing, d = serialize_doc d0 ∧
      matchesFilter (listingFilter q ty tg) d0 = true := by
  rw [list_listings] at h
  cases hcl : checkLimit lim with
  | none => rw [hcl] at h; cases h
  | some n =>
    rw [hcl] at h
    injection h with h
    intro d hd
    rw [← h] at hd
    simp only [getColl_listing, get_documents, List.mem_map] at hd
    obtain ⟨d0, hd0, hser⟩ := hd
    have hd0f := List.mem_of_mem_take hd0
    rw [List.mem_filter] at hd0f
    exact ⟨d0, hd0f.1, hser.symm, hd0f.2⟩

theorem mem_list_orders (st : Store) (b : Option String) (lim : Option Int)
    (res : List Doc) (h : list_orders st b lim = .ok res) :
    ∀ d ∈ res, ∃ d0 ∈ st.order, d = serialize_doc d0 ∧
      matchesFilter (orderFilter b) d0 = true := by
  rw [list_orders] at h
  cases hcl : checkLimit lim with
  | none => rw [hcl] at h; cases h
  | some n =>
    rw [hcl] at h
    injection h with h
    intro d hd
    rw [← h] at hd
    simp only [getColl_order, get_documents, List.mem_map] at hd
    obtain ⟨d0, hd0, hser⟩ := hd
    have hd0f := List.mem_of_mem_take hd0
    rw [List.mem_filter] at hd0f
    exact ⟨d0, hd0f.1, hser.symm, hd0f.2⟩

theorem get_shaped_title (oid : String) (p : Listing) :
    Doc.get (("_id", Value.vOid oid) :: listingToDoc p) "title" =
      some (Value.vStr p.title) := rfl

theorem get_shaped_type (oid : String) (p : Listing) :
    Doc.get (("_id", Value.vOid oid) :: listingToDoc p) "type" =
      some (Value.vStr p.type) := rfl

theorem get_shaped_description (oid : String) (p : Listing) :
    Doc.get (("_id", Value.vOid oid) :: listingToDoc p) "description" =
      some (Value.vStr p.description) := rfl

theorem get_shaped_tags (oid : String) (p : Listing) :
    Doc.get (("_id", Value.vOid oid) :: listingToDoc p) "tags" =
      some (Value.vList p.tags) := rfl

theorem find_one_none_of_no_id (docs : List Doc) (o : String)
    (h : ∀ d ∈ docs, Doc.get d "_id" ≠ some (Value.vOid o)) :
    find_one docs (idFilter o) = none := by
  rw [find_one, List.find?_eq_none]
  intro d hd
  have hne : ¬ matchesFilter (idFilter o) d = true :=
    fun hmf => h d hd ((matchesFilter_idFilter o d).mp hmf)
  simpa using hne

theorem find_one_fresh (st : Store) (hWF : Store.WF st) (p : Listing) :
    find_one (st.listing ++ [("_id", Value.vOid (genOid st.counter)) :: listingToDoc p])
        (idFilter (genOid st.counter)) =
      some (("_id", Value.vOid (genOid st.counter)) :: listingToDoc p) := by
  have hmatch : matchesFilter (idFilter (genOid st.counter))
      (("_id", Value.vOid (genOid st.counter)) :: listingToDoc p) = true :=
    (matchesFilter_idFilter _ _).mpr (by rw [doc_get_cons, if_pos rfl])
  rw [find_one, List.find?_append, find_fresh_none st hWF, Option.none_or,
    List.find?_cons_of_pos _ hmatch]

/-! ## Claims -/

/-- C1: for every valid Listing payload, `create_listing` (on a well-formed
store) returns a record whose `id` field is a non-empty string and whose
every other field equals the corresponding field of the input payload. -/
theorem create_listing_returns_payload (st : Store) (hWF : Store.WF st)
    (p : Listing) (_hv : Listing.valid p = true) :
    ∃ out, (create_listing st p).1 = .ok out ∧ out.id ≠ "" ∧
      out.title = p.title ∧ out.type = p.type ∧
      out.description = p.description ∧ out.price = p.price ∧
      out.tags = p.tags ∧ out.seller_name = p.seller_name ∧
      out.seller_email = p.seller_email ∧ out.demo_url = p.demo_url ∧
      out.thumbnail_url = p.thumbnail_url := by
  refine ⟨⟨genOid st.counter, p.title, p.type, p.description, p.price, p.tags,
    p.seller_name, p.seller_email, p.demo_url, p.thumbnail_url⟩, ?_,
    genOid_ne_empty st.counter, rfl, rfl, rfl, rfl, rfl, rfl, rfl, rfl, rfl⟩
  rw [create_listing_ok st hWF p]

/-- C1 witness: the theorem applied to the empty store and a concrete valid
payload. -/
theorem create_listing_returns_payload_witness :
    ∃ out, (create_listing stEmpty pBot).1 = .ok out ∧ out.id ≠ "" ∧
      out.title = pBot.title ∧ out.type = pBot.type ∧
      out.description = pBot.description ∧ out.price = pBot.price ∧
      out.tags = pBot.tags ∧ out.seller_name = pBot.seller_name ∧
      out.seller_email = pBot.seller_email ∧ out.demo_url = pBot.demo_url ∧
      out.thumbnail_url = pBot.thumbnail_url :=
  create_listing_returns_payload stEmpty
    ⟨by decide, by simp [stEmpty], by simp [stEmpty]⟩ pBot (by decide)

/-- C2: an Order payload whose listing_id is well-formed but matches no
stored Listing makes `create_order` fail with NotFound (404) and leaves the
whole store state unchanged. -/
theorem create_order_unknown_listing (st : Store) (p : Order) (o : String)
    (h1 : parseOid p.listing_id = some o)
    (h2 : ∀ d ∈ Store.getColl st "listing", Doc.get d "_id" ≠ some (Value.vOid o)) :
    create_order st p = (.error .notFound, st) ∧
      ApiError.status .notFound = 404 := by
  have hfo := find_one_none_of_no_id (Store.getColl st "listing") o h2
  refine ⟨?_, rfl⟩
  simp only [create_order, h1, hfo]

/-- C2 witness: the theorem applied to a store holding one listing and an
order referencing a different, well-formed id. -/
theorem create_order_unknown_listing_witness :
    create_order stA oWit = (.error .notFound, stA) ∧
      ApiError.status .notFound = 404 :=
  create_order_unknown_listing stA oWit "0123456789abcdef01234567"
    (by decide) (by decide)

/-- C3: an Order payload whose listing_id is not a well-formed identifier
makes `create_order` fail with InvalidArgument (400) before any store
access: the result is the same for every store and the state is returned
unchanged. -/
theorem create_order_malformed_id (p : Order)
    (h : parseOid p.listing_id = none) :
    ∀ st st' : Store,
      create_order st p = (.error .invalidArgument, st) ∧
        (create_order st p).1 = (create_order st' p).1 ∧
        ApiError.status .invalidArgument = 400 := by
  have e : ∀ s : Store, create_order s p = (.error .invalidArgument, s) := by
    intro s
    simp only [create_order, h]
  intro st st'
  exact ⟨e st, by rw [e st, e st'], rfl⟩

/-- C3 witness: the theorem applied to a malformed id and two different
stores. -/
theorem create_order_malformed_id_witness :
    create_order stA oBad = (.error .invalidArgument, stA) ∧
      (create_order stA oBad).1 = (create_order stEmpty oBad).1 ∧
      ApiError.status .invalidArgument = 400 :=
  create_order_malformed_id oBad (by decide) stA stEmpty

/-- C9: validation rejects any Listing payload with a negative price, so
every Listing that passes validation (and hence reaches the store) has a
non-negative price. -/
theorem listing_price_nonneg (p : Listing) :
    (p.price < 0 → Listing.valid p = false) ∧
      (Listing.valid p = true → 0 ≤ p.price) := by
  constructor
  · intro h
    rw [Listing.valid]
    rw [decide_eq_false (not_le.mpr h)]
    rfl
  · intro h
    rw [Listing.valid] at h
    repeat rw [Bool.and_eq_true] at h
    exact of_decide_eq_true h.1.1.1

/-- C9 witness: a negative-price payload is rejected; a valid payload has a
non-negative price. -/
theorem listing_price_nonneg_witness :
    Listing.valid pNeg = false ∧ 0 ≤ pBot.price :=
  ⟨(listing_price_nonneg pNeg).1 (by decide),
   (listing_price_nonneg pBot).2 (by decide)⟩

/-- C10: supplying a query parameter as the empty string behaves exactly
like omitting it, in `list_listings` (q, type, tag) and `list_orders`
(buyer_email). -/
theorem empty_param_as_absent :
    (∀ st ty tg lim, list_listings st (some "") ty tg lim =
       list_listings st none ty tg lim) ∧
    (∀ st q tg lim, list_listings st q (some "") tg lim =
       list_listings st q none tg lim) ∧
    (∀ st q ty lim, list_listings st q ty (some "") lim =
       list_listings st q ty none lim) ∧
    (∀ st lim, list_orders st (some "") lim = list_orders st none lim) :=
  ⟨fun _ _ _ _ => rfl, fun _ _ _ _ => rfl, fun _ _ _ _ => rfl, fun _ _ => rfl⟩

/-- C6: `list_listings` and `list_orders` return at most `limit` records,
treat an omitted limit as 50, and reject any supplied limit outside
`[1, 100]` with a validation error (422) for every store alike. -/
theorem limit_spec :
    (∀ st q ty tg (l : Int) res, 1 ≤ l → l ≤ 100 →
       list_listings st q ty tg (some l) = .ok res → (res.length : Int) ≤ l) ∧
    (∀ st q ty tg, list_listings st q ty tg none = list_listings st q ty tg (some 50)) ∧
    (∀ st q ty tg (l : Int), l < 1 ∨ 100 < l →
       list_listings st q ty tg (some l) = .error .validationError ∧
         ApiError.status .validationError = 422) ∧
    (∀ st b (l : Int) res, 1 ≤ l → l ≤ 100 →
       list_orders st b (some l) = .ok res → (res.length : Int) ≤ l) ∧
    (∀ st b, list_orders st b none = list_orders st b (some 50)) ∧
    (∀ st b (l : Int), l < 1 ∨ 100 < l →
       list_orders st b (some l) = .error .validationError) := by
  refine ⟨?_, ?_, ?_, ?_, ?_, ?_⟩
  · intro st q ty tg l res h1 h100 h
    have hcl : checkLimit (some l) = some l.toNat := by
      rw [checkLimit, if_pos ⟨h1, h100⟩]
    simp only [list_listings, hcl] at h
    injection h with h
    have hlen : res.length ≤ l.toNat := by
      rw [← h, List.length_map, get_documents, List.length_take]
      exact Nat.min_le_left _ _
    omega
  · intro st q ty tg; rfl
  · intro st q ty tg l hl
    have hcl : checkLimit (some l) = none := by
      rw [checkLimit, if_neg (by omega)]
    exact ⟨by simp only [list_listings, hcl], rfl⟩
  · intro st b l res h1 h100 h
    have hcl : checkLimit (some l) = some l.toNat := by
      rw [checkLimit, if_pos ⟨h1, h100⟩]
    simp only [list_orders, hcl] at h
    injection h with h
    have hlen : res.length ≤ l.toNat := by
      rw [← h, List.length_map, get_documents, List.length_take]
      exact Nat.min_le_left _ _
    omega
  · intro st b; rfl
  · intro st b l hl
    have hcl : checkLimit (some l) = none := by
      rw [checkLimit, if_neg (by omega)]
    simp only [list_orders, hcl]

/-- C6 witness: the theorem applied at concrete limits 1, 50 and 0 on the
empty store. -/
theorem limit_spec_witness :
    ((([] : List Doc).length : Int) ≤ 1) ∧
    (list_listings stEmpty none none none none =
       list_listings stEmpty none none none (some 50)) ∧
    (list_listings stEmpty none none none (some 0) = .error .validationError ∧
       ApiError.status .validationError = 422) ∧
    ((([] : List Doc).length : Int) ≤ 1) ∧
    (list_orders stEmpty none none = list_orders stEmpty none (some 50)) ∧
    (list_orders stEmpty none (some 101) = .error .validationError) :=
  ⟨limit_spec.1 stEmpty none none none 1 [] (by decide) (by decide) rfl,
   limit_spec.2.1 stEmpty none none none,
   limit_spec.2.2.1 stEmpty none none none 0 (by decide),
   limit_spec.2.2.2.1 stEmpty none 1 [] (by decide) (by decide) rfl,
   limit_spec.2.2.2.2.1 stEmpty none,
   limit_spec.2.2.2.2.2 stEmpty none 101 (by decide)⟩

/-- Fetching the listing just inserted by `create_listing` on a well-formed
store returns exactly the response `create_listing` produced. -/
theorem get_listing_post (st : Store) (hWF : Store.WF st) (p : Listing) :
    get_listing
      { st with
          listing := st.listing ++ [("_id", Value.vOid (genOid st.counter)) :: listingToDoc p],
          counter := st.counter + 1 } (genOid st.counter) =
      .ok ⟨genOid st.counter, p.title, p.type, p.description, p.price, p.tags,
        p.seller_name, p.seller_email, p.demo_url, p.thumbnail_url⟩ := by
  simp only [get_listing, parseOid_genOid, getColl_listing, find_one_fresh st hWF p,
    docToListingOut_serialize]

/-- C7: `get_listing` fails with InvalidArgument (400) on an ill-formed id
without consulting the store, fails with NotFound (404) when the well-formed
id matches no stored record, and returns the listing just created when
applied to a fresh creation's id. -/
theorem get_listing_spec (st : Store) (s : String) :
    (parseOid s = none →
       get_listing st s = .error .invalidArgument ∧
         ApiError.status .invalidArgument = 400) ∧
    (∀ o, parseOid s = some o →
       (∀ d ∈ Store.getColl st "listing", Doc.get d "_id" ≠ some (Value.vOid o)) →
       get_listing st s = .error .notFound ∧ ApiError.status .notFound = 404) ∧
    (∀ p out st1, Store.WF st →
       create_listing st p = (.ok out, st1) → get_listing st1 out.id = .ok out) := by
  refine ⟨?_, ?_, ?_⟩
  · intro h
    exact ⟨by simp only [get_listing, h], rfl⟩
  · intro o ho h2
    exact ⟨by simp only [get_listing, ho, find_one_none_of_no_id _ o h2], rfl⟩
  · intro p out st1 hWF hcl
    rw [create_listing_ok st hWF p] at hcl
    injection hcl with hA hB
    injection hA with hA
    subst hA
    subst hB
    exact get_listing_post st hWF p

/-- C7 witness: the theorem applied to a malformed id, a dangling
well-formed id, and the id returned by a concrete creation. -/
theorem get_listing_spec_witness :
    (get_listing stEmpty "xyz" = .error .invalidArgument ∧
       ApiError.status .invalidArgument = 400) ∧
    (get_listing stA "0123456789abcdef01234567" = .error .notFound ∧
       ApiError.status .notFound = 404) ∧
    get_listing stBotPost outBot.id = .ok outBot :=
  ⟨(get_listing_spec stEmpty "xyz").1 (by decide),
   (get_listing_spec stA "0123456789abcdef01234567").2.1 "0123456789abcdef01234567"
     (by decide) (by decide),
   (get_listing_spec stEmpty "xyz").2.2 pBot outBot stBotPost
     ⟨by decide, by simp [stEmpty], by simp [stEmpty]⟩ rfl⟩

/-- C8: `serialize_doc` renames `_id` to `id` converted to its string form,
converts `listing_id` to its string form exactly when it is present and an
ObjectId, and passes every other field through unchanged. -/
theorem serialize_doc_spec (d : Doc) (hne : d ≠ []) :
    (∀ v, Doc.get d "_id" = some v →
       Doc.get (serialize_doc d) "id" = some (Value.vStr (valueToString v)) ∧
       Doc.get (serialize_doc d) "_id" = none) ∧
    (∀ o, Doc.get d "listing_id" = some (Value.vOid o) →
       Doc.get (serialize_doc d) "listing_id" = some (Value.vStr o)) ∧
    (∀ v, Doc.get d "listing_id" = some v → (∀ o, v ≠ Value.vOid o) →
       Doc.get (serialize_doc d) "listing_id" = some v) ∧
    (Doc.get d "listing_id" = none →
       Doc.get (serialize_doc d) "listing_id" = none) ∧
    (∀ k, k ≠ "_id" → k ≠ "id" → k ≠ "listing_id" →
       Doc.get (serialize_doc d) k = Doc.get d k) := by
  rw [serialize_doc, if_neg hne]
  cases hid : Doc.get d "_id" with
  | none =>
    dsimp only
    cases hl : Doc.get d "listing_id" with
    | none =>
      dsimp only
      refine ⟨?_, ?_, ?_, ?_, ?_⟩
      · intro v hv; simp at hv
      · intro o ho; simp at ho
      · intro v hv; simp at hv
      · intro _; exact hl
      · intro k _ _ _; rfl
    | some v1 =>
      cases v1 with
      | vOid o1 =>
        dsimp only
        refine ⟨?_, ?_, ?_, ?_, ?_⟩
        · intro v hv; simp at hv
        · intro o ho
          injection ho with ho
          injection ho with ho
          subst ho
          rw [get_set_self]
        · intro v hv hvo
          injection hv with hv
          exact absurd hv.symm (hvo o1)
        · intro h0; simp at h0
        · intro k _ _ hk3
          rw [get_set_ne _ _ _ _ hk3]
      | vStr s1 =>
        dsimp only
        refine ⟨?_, ?_, ?_, ?_, ?_⟩
        · intro v hv; simp at hv
        · intro o ho; injection ho with ho; exact absurd ho (by simp)
        · intro v hv _; injection hv with hv; rw [hl, hv]
        · intro h0; simp at h0
        · intro k _ _ _; rfl
      | vNum q1 =>
        dsimp only
        refine ⟨?_, ?_, ?_, ?_, ?_⟩
        · intro v hv; simp at hv
        · intro o ho; injection ho with ho; exact absurd ho (by simp)
        · intro v hv _; injection hv with hv; rw [hl, hv]
        · intro h0; simp at h0
        · intro k _ _ _; rfl
      | vList l1 =>
        dsimp only
        refine ⟨?_, ?_, ?_, ?_, ?_⟩
        · intro v hv; simp at hv
        · intro o ho; injection ho with ho; exact absurd ho (by simp)
        · intro v hv _; injection hv with hv; rw [hl, hv]
        · intro h0; simp at h0
        · intro k _ _ _; rfl
      | vNull =>
        dsimp only
        refine ⟨?_, ?_, ?_, ?_, ?_⟩
        · intro v hv; simp at hv
        · intro o ho; injection ho with ho; exact absurd ho (by simp)
        · intro v hv _; injection hv with hv; rw [hl, hv]
        · intro h0; simp at h0
        · intro k _ _ _; rfl
  | some v0 =>
    dsimp only
    have hgid : Doc.get (Doc.set (Doc.remove d "_id") "id"
        (Value.vStr (valueToString v0))) "id" = some (Value.vStr (valueToString v0)) :=
      get_set_self _ _ _
    have hgiid : Doc.get (Doc.set (Doc.remove d "_id") "id"
        (Value.vStr (valueToString v0))) "_id" = none := by
      rw [get_set_ne _ _ _ _ (by decide), get_remove_self]
    have hglid : Doc.get (Doc.set (Doc.remove d "_id") "id"
        (Value.vStr (valueToString v0))) "listing_id" = Doc.get d "listing_id" := by
      rw [get_set_ne _ _ _ _ (by decide), get_remove_ne _ _ _ (by decide)]
    have hgk : ∀ k, k ≠ "_id" → k ≠ "id" →
        Doc.get (Doc.set (Doc.remove d "_id") "id"
          (Value.vStr (valueToString v0))) k = Doc.get d k := by
      intro k h1 h2
      rw [get_set_ne _ _ _ _ h2, get_remove_ne _ _ _ h1]
    rw [hglid]
    cases hl : Doc.get d "listing_id" with
    | none =>
      dsimp only
      refine ⟨?_, ?_, ?_, ?_, ?_⟩
      · intro v hv
        injection hv with hv
        subst hv
        exact ⟨hgid, hgiid⟩
      · intro o ho; simp at ho
      · intro v hv; simp at hv
      · intro _; rw [hglid, hl]
      · intro k h1 h2 _; exact hgk k h1 h2
    | some v1 =>
      cases v1 with
      | vOid o1 =>
        dsimp only
        refine ⟨?_, ?_, ?_, ?_, ?_⟩
        · intro v hv
          injection hv with hv
          subst hv
          constructor
          · rw [get_set_ne _ _ _ _ (by decide)]; exact hgid
          · rw [get_set_ne _ _ _ _ (by decide)]; exact hgiid
        · intro o ho
          injection ho with ho
          injection ho with ho
          subst ho
          rw [get_set_self]
        · intro v hv hvo
          injection hv with hv
          exact absurd hv.symm (hvo o1)
        · intro h0; simp at h0
        · intro k h1 h2 hk3
          rw [get_set_ne _ _ _ _ hk3]
          exact hgk k h1 h2
      | vStr s1 =>
        dsimp only
        refine ⟨?_, ?_, ?_, ?_, ?_⟩
        · intro v hv; injection hv with hv; subst hv; exact ⟨hgid, hgiid⟩
        · intro o ho; injection ho with ho; exact absurd ho (by simp)
        · intro v hv _; injection hv with hv; rw [hglid, hl, hv]
        · intro h0; simp at h0
        · intro k h1 h2 _; exact hgk k h1 h2
      | vNum q1 =>
        dsimp only
        refine ⟨?_, ?_, ?_, ?_, ?_⟩
        · intro v hv; injection hv with hv; subst hv; exact ⟨hgid, hgiid⟩
        · intro o ho; injection ho with ho; exact absurd ho (by simp)
        · intro v hv _; injection hv with hv; rw [hglid, hl, hv]
        · intro h0; simp at h0
        · intro k h1 h2 _; exact hgk k h1 h2
      | vList l1 =>
        dsimp only
        refine ⟨?_, ?_, ?_, ?_, ?_⟩
        · intro v hv; injection hv with hv; subst hv; exact ⟨hgid, hgiid⟩
        · intro o ho; injection ho with ho; exact absurd ho (by simp)
        · intro v hv _; injection hv with hv; rw [hglid, hl, hv]
        · intro h0; simp at h0
        · intro k h1 h2 _; exact hgk k h1 h2
      | vNull =>
        dsimp only
        refine ⟨?_, ?_, ?_, ?_, ?_⟩
        · intro v hv; injection hv with hv; subst hv; exact ⟨hgid, hgiid⟩
        · intro o ho; injection ho with ho; exact absurd ho (by simp)
        · intro v hv _; injection hv with hv; rw [hglid, hl, hv]
        · intro h0; simp at h0
        · intro k h1 h2 _; exact hgk k h1 h2

/-- C8 witness: the theorem applied to a concrete document holding an `_id`,
an ObjectId-valued `listing_id` and one ordinary field. -/
theorem serialize_doc_spec_witness :
    (Doc.get (serialize_doc dSer) "id" =
       some (Value.vStr (valueToString (Value.vOid "aa"))) ∧
     Doc.get (serialize_doc dSer) "_id" = none) ∧
    Doc.get (serialize_doc dSer) "listing_id" = some (Value.vStr "bb") ∧
    Doc.get (serialize_doc dSer) "x" = Doc.get dSer "x" :=
  ⟨(serialize_doc_spec dSer (by decide)).1 (Value.vOid "aa") rfl,
   (serialize_doc_spec dSer (by decide)).2.1 "bb" rfl,
   (serialize_doc_spec dSer (by decide)).2.2.2.2 "x" (by decide) (by decide) (by decide)⟩

/-- C4 counterexample: with q = "." the call returns the stored listing
although "." does not occur (case-insensitively) in its title, its
description, or any tag — the query string is passed to the store as a
regex pattern, not as a literal substring. -/
theorem list_listings_q_counterexample :
    list_listings stA (some ".") none none none =
      .ok [serialize_doc (("_id", Value.vOid (genOid 0)) :: listingToDoc pB)] ∧
    getStr (serialize_doc (("_id", Value.vOid (genOid 0)) :: listingToDoc pB)) "title" =
      some pB.title ∧
    ¬ ciSubstring "." pB.title ∧ ¬ ciSubstring "." pB.description ∧
    pB.tags = [] := by
  refine ⟨rfl, rfl, ?_, ?_, rfl⟩
  · unfold ciSubstring
    decide
  · unfold ciSubstring
    decide

/-- C4 (amended): for every query string X made only of regex-literal
characters, every record returned by `list_listings` with q = X has X as a
case-insensitive substring of its title, its description, or one of its
tags; and nonempty type and tag parameters given together with q are
combined with it by logical AND. -/
theorem list_listings_q_amended (st : Store) (hs : Store.ListingsShaped st)
    (ty tg : Option String) (lim : Option Int) (x : String)
    (hx : regexLiteralStr x = true) (res : List Doc)
    (h : list_listings st (some x) ty tg lim = .ok res) :
    ∀ d ∈ res, ∃ oid p,
      d = serialize_doc (("_id", Value.vOid oid) :: listingToDoc p) ∧
      (ciSubstring x p.title ∨ ciSubstring x p.description ∨
        ∃ s ∈ p.tags, ciSubstring x s) ∧
      (∀ t, ty = some t → t ≠ "" → p.type = t) ∧
      (∀ g, tg = some g → g ≠ "" → g ∈ p.tags) := by
  intro d hd
  obtain ⟨d0, hd0, hser, hmf⟩ := mem_list_listings st (some x) ty tg lim res h d hd
  obtain ⟨oid, p, rfl⟩ := hs d0 hd0
  rw [matchesFilter, Bool.and_eq_true] at hmf
  obtain ⟨hfields, hor⟩ := hmf
  refine ⟨oid, p, hser, ?_, ?_, ?_⟩
  · by_cases hxe : x = ""
    · subst hxe
      exact Or.inl (ciSubstring_nil p.title)
    · have horeq : (listingFilter (some x) ty tg).orReg =
          some (["title", "description", "tags"], x) := by
        simp only [listingFilter, show truthy (some x) = some x by
          rw [truthy, if_neg hxe]]
      rw [horeq] at hor
      rw [show (match some (["title", "description", "tags"], x) with
          | none => true
          | some (ks, pat) => ks.any fun k =>
              matchesCond (("_id", Value.vOid oid) :: listingToDoc p) k
                (Cond.cregexI pat)) =
          (["title", "description", "tags"].any fun k =>
            matchesCond (("_id", Value.vOid oid) :: listingToDoc p) k
              (Cond.cregexI x)) from rfl] at hor
      rw [List.any_cons, List.any_cons, List.any_cons, List.any_nil] at hor
      simp only [Bool.or_eq_true, Bool.false_eq_true, or_false] at hor
      rcases hor with h1 | h2 | h3
      · rw [show matchesCond (("_id", Value.vOid oid) :: listingToDoc p) "title"
            (Cond.cregexI x) = regexFindCI x p.title by
          simp only [matchesCond, get_shaped_title]] at h1
        exact Or.inl ((regexFindCI_lit_iff x p.title hx).mp h1)
      · rw [show matchesCond (("_id", Value.vOid oid) :: listingToDoc p) "description"
            (Cond.cregexI x) = regexFindCI x p.description by
          simp only [matchesCond, get_shaped_description]] at h2
        exact Or.inr (Or.inl ((regexFindCI_lit_iff x p.description hx).mp h2))
      · rw [show matchesCond (("_id", Value.vOid oid) :: listingToDoc p) "tags"
            (Cond.cregexI x) = p.tags.any (fun t => regexFindCI x t) by
          simp only [matchesCond, get_shaped_tags]] at h3
        rw [List.any_eq_true] at h3
        obtain ⟨t, ht, htx⟩ := h3
        exact Or.inr (Or.inr ⟨t, ht, (regexFindCI_lit_iff x t hx).mp htx⟩)
  · intro t hty htne
    have hf := hfields
    rw [hty] at hf
    rw [show (listingFilter (some x) (some t) tg).fields =
        [("type", Cond.ceq (Value.vStr t))] ++
          (match truthy tg with
           | some g => [("tags", Cond.cin [g])]
           | none => []) by
      simp only [listingFilter, show truthy (some t) = some t by
        rw [truthy, if_neg htne]]] at hf
    rw [List.all_append, Bool.and_eq_true] at hf
    have hcond := hf.1
    rw [List.all_cons, List.all_nil, Bool.and_true] at hcond
    rw [show matchesCond (("_id", Value.vOid oid) :: listingToDoc p) "type"
        (Cond.ceq (Value.vStr t)) = decide (p.type = t) by
      simp [matchesCond, get_shaped_type]] at hcond
    exact of_decide_eq_true hcond
  · intro g htg hgne
    have hf := hfields
    rw [htg] at hf
    rw [show (listingFilter (some x) ty (some g)).fields =
        (match truthy ty with
         | some t => [("type", Cond.ceq (Value.vStr t))]
         | none => []) ++ [("tags", Cond.cin [g])] by
      simp only [listingFilter, show truthy (some g) = some g by
        rw [truthy, if_neg hgne]]] at hf
    rw [List.all_append, Bool.and_eq_true] at hf
    have hcond := hf.2
    rw [List.all_cons, List.all_nil, Bool.and_true] at hcond
    simp only [matchesCond, get_shaped_tags, List.any_eq_true] at hcond
    obtain ⟨t, ht, hteq⟩ := hcond
    have : t = g := by simpa using hteq
    subst this
    exact ht

/-- C4 witness: the amended theorem applied to a concrete store, the literal
query "b" and a matching type filter. -/
theorem list_listings_q_amended_witness :
    ∃ oid p,
      serialize_doc (("_id", Value.vOid (genOid 0)) :: listingToDoc pB) =
        serialize_doc (("_id", Value.vOid oid) :: listingToDoc p) ∧
      (ciSubstring "b" p.title ∨ ciSubstring "b" p.description ∨
        ∃ s ∈ p.tags, ciSubstring "b" s) ∧
      (∀ t, (some "t" : Option String) = some t → t ≠ "" → p.type = t) ∧
      (∀ g, (none : Option String) = some g → g ≠ "" → g ∈ p.tags) :=
  list_listings_q_amended stA
    (fun d hd => ⟨genOid 0, pB, by simpa [stA] using hd⟩)
    (some "t") none none "b" (by decide)
    [serialize_doc (("_id", Value.vOid (genOid 0)) :: listingToDoc pB)] rfl
    (serialize_doc (("_id", Value.vOid (genOid 0)) :: listingToDoc pB)) (by simp)

/-- C5 counterexample: with tag = "" the call returns the stored listing
although its tags list does not contain "" — the empty tag value disables
the filter instead of being matched exactly. -/
theorem list_listings_tag_counterexample :
    list_listings stB none none (some "") none =
      .ok [serialize_doc (("_id", Value.vOid (genOid 0)) :: listingToDoc pTagged)] ∧
    getTags (serialize_doc (("_id", Value.vOid (genOid 0)) :: listingToDoc pTagged))
      "tags" = some ["a"] ∧
    ¬ ("" ∈ pTagged.tags) := by
  refine ⟨rfl, rfl, ?_⟩
  decide

/-- C5 (amended): for every nonempty tag value X, `list_listings` with
tag = X returns only records whose tags list contains X as an exact
element. -/
theorem list_listings_tag_amended (st : Store) (hs : Store.ListingsShaped st)
    (q ty : Option String) (lim : Option Int) (g : String) (hg : g ≠ "")
    (res : List Doc) (h : list_listings st q ty (some g) lim = .ok res) :
    ∀ d ∈ res, ∃ oid p,
      d = serialize_doc (("_id", Value.vOid oid) :: listingToDoc p) ∧
      g ∈ p.tags := by
  intro d hd
  obtain ⟨d0, hd0, hser, hmf⟩ := mem_list_listings st q ty (some g) lim res h d hd
  obtain ⟨oid, p, rfl⟩ := hs d0 hd0
  rw [matchesFilter, Bool.and_eq_true] at hmf
  obtain ⟨hfields, -⟩ := hmf
  rw [show (listingFilter q ty (some g)).fields =
      (match truthy ty with
       | some t => [("type", Cond.ceq (Value.vStr t))]
       | none => []) ++ [("tags", Cond.cin [g])] by
    simp only [listingFilter, show truthy (some g) = some g by
      rw [truthy, if_neg hg]]] at hfields
  rw [List.all_append, Bool.and_eq_true] at hfields
  have hcond := hfields.2
  rw [List.all_cons, List.all_nil, Bool.and_true] at hcond
  simp only [matchesCond, get_shaped_tags, List.any_eq_true] at hcond
  obtain ⟨t, ht, hteq⟩ := hcond
  have : t = g := by simpa using hteq
  subst this
  exact ⟨oid, p, hser, ht⟩

/-- C5 witness: the amended theorem applied to a concrete store and the tag
"a". -/
theorem list_listings_tag_amended_witness :
    ∃ oid p,
      serialize_doc (("_id", Value.vOid (genOid 0)) :: listingToDoc pTagged) =
        serialize_doc (("_id", Value.vOid oid) :: listingToDoc p) ∧
      "a" ∈ p.tags :=
  list_listings_tag_amended stB
    (fun d hd => ⟨genOid 0, pTagged, by simpa [stB] using hd⟩)
    none none none "a" (by decide)
    [serialize_doc (("_id", Value.vOid (genOid 0)) :: listingToDoc pTagged)] rfl
    (serialize_doc (("_id", Value.vOid (genOid 0)) :: listingToDoc pTagged)) (by simp)

end Mkt
